import Mathlib

/-!
Verification of the CMS grading pipeline and score-dispatch engine
(`cms/grading/TaskType.py`, `cms/grading/tasktypes/Batch.py`,
`cms/grading/tasktypes/OutputOnly.py`, `cms/service/ScoringService.py`)
against its natural-language specification.

The Python code is shallowly embedded: pure helpers become Lean functions,
the sandbox's post-execution report becomes a structure, and the mutable
service state becomes explicit state passing. Outcomes (Python floats fed
through `float()` on decimal literals) are modelled as rationals.
-/

namespace CMS

/-! ## Whitespace-normalized diff (`cms/grading/TaskType.py`) -/

/-- The `WHITES` constant of `TaskType.py`: `" \t\n\r"`. -/
def WHITES : List Char := [' ', '\t', '\n', '\r']

/-- Membership of a character in `WHITES`. -/
def isWhite (c : Char) : Bool := WHITES.contains c

/-- Python `s.strip(chars)`: remove the leading and trailing characters of
`l` that are drawn from `chars`. -/
def pyStrip (chars : List Char) (l : List Char) : List Char :=
  ((l.dropWhile (fun c => chars.contains c)).reverse.dropWhile
      (fun c => chars.contains c)).reverse

/-- `white_diff_canonicalize` from `TaskType.py`, on the character list of
the string: every whitespace character is first replaced by a space (the
loop `for char in WHITES[1:]: string = string.replace(char, WHITES[0])`),
then the string is split on spaces, empty tokens are dropped, and the
remaining tokens are joined with a single space. -/
def white_diff_canonicalize_chars (l : List Char) : List Char :=
  let replaced := l.map (fun c => if isWhite c then ' ' else c)
  List.intercalate [' '] ((replaced.splitOn ' ').filter (fun x => x ≠ []))

/-- `white_diff_canonicalize` on strings. -/
def white_diff_canonicalize (s : String) : String :=
  ⟨white_diff_canonicalize_chars s.data⟩

/-- Python `file.readline` semantics: split a file's content into lines,
each keeping its trailing newline; the last line may lack one; once the
content is exhausted no further line is produced (readline returns `''`). -/
def linesOfAux : List Char → List Char → List (List Char)
  | acc, [] => if acc = [] then [] else [acc]
  | acc, c :: rest =>
      if c = '\n' then (acc ++ [c]) :: linesOfAux [] rest
      else linesOfAux (acc ++ [c]) rest

/-- The sequence of lines `readline` yields on a file holding `s`. -/
def linesOf (s : String) : List (List Char) := linesOfAux [] s.data

/-- Once one of the two files is exhausted, each further iteration of the
`white_diff` loop pairs a real line with `readline`'s `''` and demands that
the real line strip (over `WHITES`) to empty; the loop returns `True` when
the longer file also runs out. -/
def blankTail : List (List Char) → Bool
  | [] => true
  | l :: ls => if pyStrip WHITES l ≠ [] then false else blankTail ls

/-- The `while True` loop of `white_diff` in `TaskType.py`, acting on the
two files' remaining lines: while both files have a line, the two canonical
forms must agree; from the point where one file is exhausted, the loop
reduces to `blankTail` on the other file's remaining lines. -/
def whiteDiffAux : List (List Char) → List (List Char) → Bool
  | [], rs => blankTail rs
  | lout :: ls, [] => blankTail (lout :: ls)
  | lout :: ls, lres :: rs =>
      if white_diff_canonicalize_chars lout ≠ white_diff_canonicalize_chars lres
      then false
      else whiteDiffAux ls rs

/-- `white_diff(output, res)` from `TaskType.py`, on file contents. -/
def white_diff (output res : String) : Bool :=
  whiteDiffAux (linesOf output) (linesOf res)

/-! ## Sandbox exit classification (`cms/grading/Sandbox.py` constants,
as consumed by `TaskType.py`) -/

/-- The terminal classifications a sandbox execution can report
(`Sandbox.EXIT_*`). -/
inductive ExitStatus
  | EXIT_OK
  | EXIT_TIMEOUT
  | EXIT_SIGNAL
  | EXIT_SANDBOX_ERROR
  | EXIT_SYSCALL
  | EXIT_FILE_ACCESS
  deriving DecidableEq, Repr

/-! ## Compilation step (`TaskType.compilation_step`) -/

/-- The post-execution state of a compilation sandbox, as queried by
`compilation_step`: whether `execute_without_std` itself succeeded, the
exit status and exit code, the killing signal and syscall when relevant,
the `get_stats()` line and the collected compiler output. -/
structure CompilationBox where
  boxSuccess : Bool
  exitStatus : ExitStatus
  exitCode : Int
  killingSignal : Int
  killingSyscall : String
  stats : String
  compilerOutput : String
  deriving Repr

/-- The classification chain of `TaskType.compilation_step`, as the triple
`(success, compilation_success, text)` it returns. A `False` value of
`execute_without_std` aborts with `(False, None, None)`; then each
`exit_status` branch fills (or, for the administrator-actionable branches
`EXIT_SANDBOX_ERROR`, `EXIT_SYSCALL` and `EXIT_FILE_ACCESS`, leaves at
their initial values `False`/`None`/`None`) the three variables. The
storage of executables on success is elided: it does not affect the
returned triple. -/
def compilation_step (b : CompilationBox) : Bool × Option Bool × Option String :=
  if b.boxSuccess = false then (false, none, none)
  else if b.exitStatus = ExitStatus.EXIT_OK ∧ b.exitCode = 0 then
    (true, some true, some ("OK " ++ b.stats ++ "\n" ++ b.compilerOutput))
  else if b.exitStatus = ExitStatus.EXIT_OK ∧ b.exitCode ≠ 0 then
    (true, some false, some ("Failed " ++ b.stats ++ "\n" ++ b.compilerOutput))
  else if b.exitStatus = ExitStatus.EXIT_TIMEOUT then
    (true, some false, some ("Time out " ++ b.stats ++ "\n" ++ b.compilerOutput))
  else if b.exitStatus = ExitStatus.EXIT_SIGNAL then
    (true, some false,
     some ("Killed with signal " ++ toString b.killingSignal ++ " "
       ++ b.stats ++ ".\nThis could be triggered by violating memory limits\n"
       ++ b.compilerOutput))
  else
    (false, none, none)

/-! ## Manager-output parsing
(`filter_ansi_escape` and `extract_outcome_and_text` in `TaskType.py`) -/

/-- `filter_ansi_escape` from `TaskType.py`: drop every character from the
first `ESC` (`\x1b`) of an escape sequence up to and including the next
`m`. -/
def filter_ansi_escape (s : List Char) : List Char :=
  (s.foldl
    (fun (st : Bool × List Char) c =>
      let ansi := if c = Char.ofNat 27 then true else st.1
      let res := if ansi = false then st.2 ++ [c] else st.2
      let ansi' := if c = 'm' then false else ansi
      (ansi', res))
    (false, [])).2

/-- Python's default `str.strip()` whitespace set. -/
def pyWhitespace : List Char :=
  [' ', '\t', '\n', '\r', Char.ofNat 11, Char.ofNat 12]

/-- Value of a list of decimal digit characters (`0` for the empty list). -/
def natOfDigits (l : List Char) : ℕ :=
  l.foldl (fun acc c => acc * 10 + (c.toNat - 48)) 0

/-- `c` is a decimal digit. -/
def isDigitChar (c : Char) : Bool := '0' ≤ c ∧ c ≤ '9'

/-- Modelled from the spec: the first line of the manager's standard output
must "parse as a floating-point outcome" via Python's built-in `float()`,
which is runtime code outside this repository. The model accepts the
optionally-signed plain decimal literals `d+`, `d+.d*` and `.d+`
(surrounding whitespace already stripped by the caller) and rejects
everything else; exponent, `inf` and `nan` forms are outside the inputs
considered here. -/
def pyFloatCore (l : List Char) : Option ℚ :=
  match l.splitOn '.' with
  | [ip] =>
      if ip ≠ [] ∧ ip.all isDigitChar then some (natOfDigits ip) else none
  | [ip, fp] =>
      if (ip ≠ [] ∨ fp ≠ []) ∧ ip.all isDigitChar ∧ fp.all isDigitChar then
        some ((natOfDigits ip : ℚ) + (natOfDigits fp : ℚ) / (10 ^ fp.length))
      else none
  | _ => none

/-- Modelled from the spec: Python `float(s)` on decimal literals, with the
leading sign and surrounding whitespace handled here. -/
def pyFloat (l : List Char) : Option ℚ :=
  let t := pyStrip pyWhitespace l
  match t with
  | '-' :: rest => (pyFloatCore rest).map (fun q => -q)
  | '+' :: rest => pyFloatCore rest
  | _ => pyFloatCore t

/-- The first `readline` of a file holding `s` (with its trailing newline,
or `[]` on an empty file). -/
def firstLine (s : String) : List Char :=
  match linesOf s with
  | [] => []
  | l :: _ => l

/-- `extract_outcome_and_text` from `TaskType.py`, on the contents of the
manager's two output files: the first stdout line is stripped and parsed
as a float (a parse failure raises `ValueError`, here `none`), the first
stderr line is passed through `filter_ansi_escape` and becomes the text. -/
def extract_outcome_and_text (stdout stderr : String) : Option (ℚ × String) :=
  let outcomeLine := pyStrip pyWhitespace (firstLine stdout)
  let text : String := ⟨filter_ansi_escape (firstLine stderr)⟩
  match pyFloat outcomeLine with
  | none => none
  | some q => some (q, text)

/-! ## Evaluation step, after-run half (`TaskType.evaluation_step_after_run`) -/

/-- The resource-usage triple `plus` assembled at the start of
`evaluation_step_after_run`. -/
structure PlusStats where
  execution_time : ℚ
  execution_wall_clock_time : ℚ
  memory_used : ℕ
  deriving DecidableEq, Repr

/-- The post-execution state of an evaluation sandbox, as queried by
`evaluation_step_after_run`: exit status, killing signal/syscall when
relevant, the contents of the sandbox's `stdout.txt` and `stderr.txt`, and
the resource usage. -/
structure EvalBox where
  exitStatus : ExitStatus
  killingSignal : Int
  killingSyscall : String
  stdoutFile : String
  stderrFile : String
  usage : PlusStats
  deriving Repr

/-- `TaskType.evaluation_step_after_run`, returning
`(success, outcome, text, plus)`. The branches follow the source's
`if`/`elif` chain; in the `EXIT_OK` final case the outcome and text are
extracted from the manager's two output streams and a `ValueError` leaves
the initial `(False, None, None)`. -/
def evaluation_step_after_run (sb : EvalBox) (final : Bool) :
    Bool × Option ℚ × Option String × PlusStats :=
  if sb.exitStatus = ExitStatus.EXIT_TIMEOUT then
    (true, some 0, some "Execution timed out.", sb.usage)
  else if sb.exitStatus = ExitStatus.EXIT_SIGNAL then
    (true, some 0,
     some ("Execution killed with signal " ++ toString sb.killingSignal
       ++ ". This could be triggered by violating memory limits"),
     sb.usage)
  else if sb.exitStatus = ExitStatus.EXIT_SANDBOX_ERROR then
    (false, none, none, sb.usage)
  else if sb.exitStatus = ExitStatus.EXIT_SYSCALL then
    (true, some 0,
     some ("Execution killed because of forbidden syscall "
       ++ sb.killingSyscall ++ "."),
     sb.usage)
  else if sb.exitStatus = ExitStatus.EXIT_FILE_ACCESS then
    (true, some 0,
     some "Execution killed because of forbidden file access.",
     sb.usage)
  else if sb.exitStatus ≠ ExitStatus.EXIT_OK then
    (false, none, none, sb.usage)
  else if final = false then
    (true, none, none, sb.usage)
  else
    match extract_outcome_and_text sb.stdoutFile sb.stderrFile with
    | none => (false, none, none, sb.usage)
    | some (o, t) => (true, some o, some t, sb.usage)

/-! ## Sandbox filesystem, `white_diff_step`, and the Batch check phase
(`TaskType.white_diff_step`, `Batch.evaluate` in
`cms/grading/tasktypes/Batch.py`) -/

/-- An entry of a sandbox's filesystem: a regular file with its content, or
a symbolic link with its target path. -/
inductive FsEntry
  | regular (content : String)
  | symlink (target : String)
  deriving DecidableEq, Repr

/-- A sandbox filesystem: an association of filenames to entries. -/
abbrev Fs := List (String × FsEntry)

/-- Look a filename up in a sandbox filesystem. -/
def fsLookup (fs : Fs) (name : String) : Option FsEntry :=
  (fs.find? (fun p => decide (p.1 = name))).map (fun p => p.2)

/-- `sandbox.file_exists`: the name is present (a symlink also counts as
present). -/
def file_exists (fs : Fs) (name : String) : Bool :=
  (fsLookup fs name).isSome

/-- `sandbox.get_file`: the content of a regular file. The scenarios
settled here never read a symlink or a missing file, so those cases
default to the empty content. -/
def readFile (fs : Fs) (name : String) : String :=
  match fsLookup fs name with
  | some (FsEntry.regular c) => c
  | _ => ""

/-- `TaskType.white_diff_step`: copy `files_to_get` into the sandbox as
regular files, then — if the contestant's output file exists — compare it
with the reference file `res.txt` under `white_diff`, the outcome being
exactly `1.0` on equality and `0.0` otherwise; a missing output file gives
outcome `0.0` with the "didn't produce" message. The first component
(`success`) is always `True`. -/
def white_diff_step (fs : Fs) (output_filename : String)
    (files_to_get : List (String × String)) : Bool × ℚ × String :=
  if file_exists (fs ++ files_to_get.map (fun p => (p.1, FsEntry.regular p.2)))
      output_filename then
    if white_diff
        (readFile (fs ++ files_to_get.map (fun p => (p.1, FsEntry.regular p.2)))
          output_filename)
        (readFile (fs ++ files_to_get.map (fun p => (p.1, FsEntry.regular p.2)))
          "res.txt")
    then (true, 1, "Output is correct")
    else (true, 0, "Output isn't correct")
  else (true, 0, "Evaluation didn't produce file " ++ output_filename)

/-- The guarded copy of the contestant's output file from the evaluation
sandbox into the freshly created checker sandbox in `Batch.evaluate`: the
source path is first tested with `os.path.islink`, and a symlink raises
`FileNotFoundError`, which — like a genuinely missing file — is swallowed
(`pass`), leaving the checker sandbox untouched; only a regular file is
copied. -/
def batch_put_user_output (sandboxFs : Fs) (output_filename : String)
    (checkbox : Fs) : Fs :=
  match fsLookup sandboxFs output_filename with
  | some (FsEntry.regular c) => checkbox ++ [(output_filename, FsEntry.regular c)]
  | some (FsEntry.symlink _) => checkbox
  | none => checkbox

/-- The diff-mode check phase of `Batch.evaluate`, from the creation of the
checker sandbox (populated with the reference output `res.txt` and the
input file) through the guarded copy of the contestant's output to the
white-diff comparison. -/
def batch_diff_check (sandboxFs : Fs) (output_filename input_filename : String)
    (jobInput jobOutput : String) : Bool × ℚ × String :=
  white_diff_step
    (batch_put_user_output sandboxFs output_filename
      [("res.txt", FsEntry.regular jobOutput),
       (input_filename, FsEntry.regular jobInput)])
    output_filename []

/-! ## OutputOnly evaluation (`cms/grading/tasktypes/OutputOnly.py`) -/

/-- The fields of the job mutated by `OutputOnly.evaluate`, plus whether a
sandbox was created during the call. Python stores `job.outcome` as the
string `"%s" % outcome`; that formatting is injective on the values that
arise, so the numeric value is kept here. -/
structure OOResult where
  success : Bool
  outcome : Option ℚ
  text : List String
  sandboxCreated : Bool
  deriving DecidableEq, Repr

/-- `OutputOnly.evaluate`. The testcase-specific filename is
`"output_%s.txt" % testcase_codename`; if it was not submitted the job is
immediately concluded with `success=True`, `outcome="0.0"` and text
`"File not submitted"`, before any sandbox is created. Otherwise a check
sandbox is created and the submitted output is judged either by
`checker_step` or by `white_diff_step`; those two helpers live in
`cms/grading/steps`, which is not part of this repository's sources, so
their results are taken as arguments (`checkerStep` is the
`(success, outcome, text)` of `checker_step`, `whiteDiffRes` the
`(outcome, text)` of the steps module's `white_diff_step`). -/
def OutputOnly_evaluate (usesChecker : Bool) (files : List String)
    (codename : String) (checkerStep : Bool × Option ℚ × List String)
    (whiteDiffRes : ℚ × List String) : OOResult :=
  let user_output_filename := "output_" ++ codename ++ ".txt"
  if user_output_filename ∈ files then
    if usesChecker then
      { success := checkerStep.1, outcome := checkerStep.2.1,
        text := checkerStep.2.2, sandboxCreated := true }
    else
      { success := true, outcome := some whiteDiffRes.1,
        text := whiteDiffRes.2, sandboxCreated := true }
  else
    { success := true, outcome := some 0,
      text := ["File not submitted"], sandboxCreated := false }

/-! ## Ranking identifier encoding (`encode_id` in
`cms/service/ScoringService.py`) -/

/-- The literal alphabet string of `encode_id`:
`"ABCDEFGHIJKLMNOPQRSTUVWXYZabcdefghijklmnopqrstuvwxyz0123456789"`. -/
def ID_ALPHABET : List Char :=
  ("ABCDEFGHIJKLMNOPQRSTUVWXYZabcdefghijklmnopqrstuvwxyz0123456789").data

/-- One lowercase hexadecimal digit, as produced by Python's `hex`. -/
def hexDig (d : ℕ) : Char :=
  if d < 10 then Char.ofNat (48 + d) else Char.ofNat (87 + d)

/-- The digits (most significant first) of `n` in base 16, lowercase, as
in Python's `hex` (a single `0` digit for `n = 0`). The first argument is
fuel bounding the recursion depth, always instantiated with `n` itself,
which suffices since each step divides by 16. -/
def natToHexAux : ℕ → ℕ → List Char
  | 0, n => [hexDig (n % 16)]
  | fuel + 1, n =>
      if n < 16 then [hexDig n]
      else natToHexAux fuel (n / 16) ++ [hexDig (n % 16)]

/-- Python `hex(n)` for a nonnegative `n`: `"0x"` followed by the
lowercase hexadecimal digits. -/
def pyHex (n : ℕ) : List Char := '0' :: 'x' :: natToHexAux n n

/-- The per-character step of `encode_id`: a character of the alphabet is
kept; any other is replaced by `"_" + hex(ord(char))[-2:]`, the underscore
followed by the LAST TWO CHARACTERS of Python's `hex` string. -/
def encode_id_char (c : Char) : List Char :=
  if c ∈ ID_ALPHABET then [c]
  else
    let h := pyHex c.toNat
    '_' :: h.drop (h.length - 2)

/-- `encode_id` from `ScoringService.py`: the concatenation, over the
characters of the entity id, of `encode_id_char`. -/
def encode_id (s : String) : String :=
  ⟨s.data.foldl (fun acc c => acc ++ encode_id_char c) []⟩

/-- Follows the spec's words, for comparison with `encode_id`: the `_XX`
escape, an underscore followed by exactly the two hexadecimal digits of
the character's byte code. -/
def spec_escape (c : Char) : List Char :=
  ['_', hexDig (c.toNat / 16), hexDig (c.toNat % 16)]

/-- The target alphabet `[A-Za-z0-9_]` of the ranking protocol. -/
def isWordChar (c : Char) : Bool :=
  (('A' ≤ c ∧ c ≤ 'Z') ∨ ('a' ≤ c ∧ c ≤ 'z') ∨
   ('0' ≤ c ∧ c ≤ '9') ∨ c = '_' : Prop)

/-! ## Operation Queue dispatch
(`ScoringService.dispatch_operations`) -/

/-- An entry of the operation queue: a pending `(method, args)` pair whose
first argument (`args[0]`) is the destination ranking; the rest of the
arguments are the payload. -/
structure OpEntry (Dest Payload : Type) where
  dest : Dest
  payload : Payload
  deriving DecidableEq, Repr

/-- One dispatch tick (`ScoringService.dispatch_operations`), on the queue
suffix still to be processed, given the set of destinations that already
failed this tick. `deliver e` tells whether invoking the entry's method
succeeds (returns) or fails (raises). An entry whose destination already
failed is requeued without being attempted; a successful delivery drops
the entry; a failed delivery requeues it and marks its destination failed.
The returned list is the queue for the next tick (`new_queue`). -/
def dispatch_operations {Dest Payload : Type} [DecidableEq Dest]
    (deliver : OpEntry Dest Payload → Bool) :
    List Dest → List (OpEntry Dest Payload) → List (OpEntry Dest Payload)
  | _, [] => []
  | failed, e :: rest =>
      if e.dest ∈ failed then e :: dispatch_operations deliver failed rest
      else if deliver e then dispatch_operations deliver failed rest
      else e :: dispatch_operations deliver (e.dest :: failed) rest

/-- The entries a dispatch tick actually attempts to deliver (those on
which `method(*args)` is invoked), in invocation order. -/
def attempted_operations {Dest Payload : Type} [DecidableEq Dest]
    (deliver : OpEntry Dest Payload → Bool) :
    List Dest → List (OpEntry Dest Payload) → List (OpEntry Dest Payload)
  | _, [] => []
  | failed, e :: rest =>
      if e.dest ∈ failed then attempted_operations deliver failed rest
      else if deliver e then e :: attempted_operations deliver failed rest
      else e :: attempted_operations deliver (e.dest :: failed) rest

/-- The entries of a queue bound for destination `d`. -/
def opsFor {Dest Payload : Type} [DecidableEq Dest] (d : Dest)
    (q : List (OpEntry Dest Payload)) : List (OpEntry Dest Payload) :=
  q.filter (fun e => decide (e.dest = d))

/-! ## Backlog catch-up (`ScoringService.score_old_submissions`) -/

/-- The service fields driving `score_old_submissions`: the two backlog
lists (used as stacks: `search_jobs_not_done` prepends, the catch-up loop
pops from the end with `list[-1]` / `del list[-1]`), plus the ids already
handed to `new_evaluation` / `submission_tokened`, in call order (the full
effect of those two calls is modelled separately; here only the sequence
of processed ids matters). -/
structure BacklogState where
  toScore : List ℕ
  toToken : List (ℕ × ℕ)
  doneScore : List ℕ
  doneToken : List (ℕ × ℕ)
  deriving DecidableEq, Repr

/-- The `for unused_i in xrange(to_score_now)` loop: `k` times, call
`new_evaluation` on the last element of `submission_ids_to_score` and
delete it. -/
def popScoreLoop : ℕ → BacklogState → BacklogState
  | 0, st => st
  | k + 1, st =>
      popScoreLoop k
        { st with toScore := st.toScore.dropLast,
                  doneScore := st.doneScore ++ st.toScore.getLast?.toList }

/-- The analogous loop over `submission_ids_to_token`. -/
def popTokenLoop : ℕ → BacklogState → BacklogState
  | 0, st => st
  | k + 1, st =>
      popTokenLoop k
        { st with toToken := st.toToken.dropLast,
                  doneToken := st.doneToken ++ st.toToken.getLast?.toList }

/-- `ScoringService.score_old_submissions`: score at most 4 backlogged
submissions; if submissions remain, return `True` (re-arm) at once;
otherwise process at most 16 backlogged token events; return `True` iff
token events remain. The returned boolean is the continuation flag the
timeout machinery uses to decide whether to run the method again. -/
def score_old_submissions (st : BacklogState) : BacklogState × Bool :=
  let to_score := st.toScore.length
  let to_token := st.toToken.length
  let to_score_now := if to_score < 4 then to_score else 4
  let to_token_now := if to_token < 16 then to_token else 16
  let st1 := popScoreLoop to_score_now st
  if to_score - to_score_now > 0 then (st1, true)
  else
    let st2 := popTokenLoop to_token_now st1
    if to_token - to_token_now > 0 then (st2, true)
    else (st2, false)

/-! ## Scoring Service event ingestion
(`ScoringService.new_evaluation`, `ScoringService.submission_tokened`,
`ScoringService.initialize`) -/

/-- A contest user, with the `hidden` flag. -/
structure SSUser where
  username : String
  first_name : String
  last_name : String
  hidden : Bool
  deriving DecidableEq, Repr

/-- The state of a submission as read from the database by the Scoring
Service. -/
structure SSSubmission where
  user : SSUser
  taskId : ℕ
  taskName : String
  timestamp : ℕ
  outcomes : List ℚ
  tokened : Bool
  deriving DecidableEq, Repr

/-- An operation appended to the operation queue by the Scoring Service:
initialize a ranking, push a submission, push a score change, push a token
change. The ranking is identified by its index; the `extra` details list of
a score change is elided. -/
inductive RankingOp
  | initRanking (ranking : ℕ)
  | sendSubmission (ranking : ℕ) (url : String) (user task : String)
      (time : ℕ)
  | sendScoreChange (ranking : ℕ) (url : String) (submission : String)
      (time : ℕ) (score : ℚ)
  | sendTokenChange (ranking : ℕ) (url : String) (submission : String)
      (time : ℕ)
  deriving DecidableEq, Repr

/-- The mutable state of the Scoring Service touched by `new_evaluation`
and `submission_tokened`, over an abstract scorer-pool type `σ`: the
scorers, the contest's ranking view, the scores persisted on submissions,
the scored/tokened id sets, and the operation queue. -/
structure SSState (σ : Type) where
  scorers : σ
  rankingView : List ((String × ℕ) × ℚ)
  persistedScores : List (ℕ × ℚ × ℚ)
  scoredIds : List ℕ
  tokenedIds : List ℕ
  queue : List RankingOp
  deriving Repr

/-- `ScoringService.new_evaluation`: look the submission up; a missing
submission is only logged; a submission of a hidden user returns at once.
Otherwise the submission is added to its task's scorer, marked scored, the
ranking view is updated, the score is persisted, and a
`send_submission` / `send_change` pair is appended to the operation queue
for every configured ranking. The score-type machinery
(`cms/grading/scoretypes`, not among this repository's sources) is
abstracted by `addSub` (the scorer pool after `add_submission`),
`poolScore` (the `(score, public_score)` the pool then holds for the
submission) and `updView` (`Contest.update_ranking_view`). -/
def new_evaluation {σ : Type}
    (addSub : σ → ℕ → ℕ → String → List ℚ → Bool → σ)
    (poolScore : σ → ℕ → ℚ × ℚ)
    (updView : σ → List ((String × ℕ) × ℚ) → List ((String × ℕ) × ℚ))
    (rankings : List ℕ) (db : ℕ → Option SSSubmission)
    (st : SSState σ) (submission_id : ℕ) : SSState σ :=
  match db submission_id with
  | none => st
  | some sub =>
      if sub.user.hidden = true then st
      else
        let scorers' := addSub st.scorers submission_id sub.timestamp
          sub.user.username sub.outcomes sub.tokened
        let sc := poolScore scorers' submission_id
        let submission_url := "/submissions/" ++ encode_id (toString submission_id)
        let subchange_url := "/subchanges/" ++
          encode_id (toString sub.timestamp ++ toString submission_id ++ "s")
        { scorers := scorers',
          rankingView := updView scorers' st.rankingView,
          persistedScores := st.persistedScores ++ [(submission_id, sc.1, sc.2)],
          scoredIds := st.scoredIds ++ [submission_id],
          tokenedIds := st.tokenedIds,
          queue := st.queue ++
            (rankings.map (fun r =>
              [RankingOp.sendSubmission r submission_url
                 (encode_id sub.user.username) (encode_id sub.taskName)
                 sub.timestamp,
               RankingOp.sendScoreChange r subchange_url
                 (encode_id (toString submission_id)) sub.timestamp sc.1])).flatten }

/-- `ScoringService.submission_tokened`: look the submission up (a missing
one raises `KeyError`, modelled as no state change); a submission of a
hidden user returns at once. Otherwise the submission is marked tokened
and a `send_submission` / `send_change` pair is appended for every
configured ranking. -/
def submission_tokened {σ : Type} (rankings : List ℕ)
    (db : ℕ → Option SSSubmission) (st : SSState σ)
    (submission_id : ℕ) (timestamp : ℕ) : SSState σ :=
  match db submission_id with
  | none => st
  | some sub =>
      if sub.user.hidden = true then st
      else
        let submission_url := "/submissions/" ++ encode_id (toString submission_id)
        let subchange_url := "/subchanges/" ++
          encode_id (toString timestamp ++ toString submission_id ++ "t")
        { st with
          tokenedIds := st.tokenedIds ++ [submission_id],
          queue := st.queue ++
            (rankings.map (fun r =>
              [RankingOp.sendSubmission r submission_url
                 (encode_id sub.user.username) (encode_id sub.taskName)
                 sub.timestamp,
               RankingOp.sendTokenChange r subchange_url
                 (encode_id (toString submission_id)) timestamp])).flatten }

/-- The `users` dictionary assembled by `ScoringService.initialize` for the
`PUT /users/` request: one entry per NON-hidden contest user, keyed by the
encoded username, carrying first and last name. -/
def initialize_users (users : List SSUser) : List (String × String × String) :=
  (users.filter (fun u => u.hidden = false)).map
    (fun u => (encode_id u.username, u.first_name, u.last_name))

/-! ## Helper lemmas -/

@[simp]
theorem pyStrip_nil (chars : List Char) : pyStrip chars [] = [] := rfl

theorem whiteDiffAux_symm (a b : List (List Char)) :
    whiteDiffAux a b = whiteDiffAux b a := by
  induction a generalizing b with
  | nil => cases b <;> rfl
  | cons lout ls ih =>
      cases b with
      | nil => rfl
      | cons lres rs =>
          simp only [whiteDiffAux, ne_eq]
          by_cases h : white_diff_canonicalize_chars lout =
              white_diff_canonicalize_chars lres
          · simp [h, ih]
          · have h' : ¬ white_diff_canonicalize_chars lres =
                white_diff_canonicalize_chars lout := fun hc => h hc.symm
            simp [h, h']

/-! ## C4 -/

/-- C4: the whitespace-normalized diff is an equivalence check:
canonicalization is deterministic, `white_diff` is symmetric, the pair
`"1 2\n"` / `"1  2"` (trailing-whitespace-only difference) compares equal,
and the pair `"1 2\n3\n"` / `"1 2\n"` does not. -/
theorem c4_white_diff_equivalence :
    (∀ s : String, white_diff_canonicalize s = white_diff_canonicalize s) ∧
    (∀ a b : String, white_diff a b = white_diff b a) ∧
    white_diff "1 2\n" "1  2" = true ∧
    white_diff "1 2\n3\n" "1 2\n" = false :=
  ⟨fun _ => rfl,
   fun a b => whiteDiffAux_symm (linesOf a) (linesOf b),
   by decide,
   by decide⟩

/-! ## C1 -/

/-- C1, counterexample: the claim states that a compilation ending in
`FORBIDDEN_SYSCALL` reports `operation_success=True` with
`compilation_success=False`; on the code the `EXIT_SYSCALL` branch of
`compilation_step` only logs and leaves the initial
`(False, None, None)`, exactly like `EXIT_SANDBOX_ERROR`. -/
theorem c1_counterexample :
    compilation_step
        ⟨true, ExitStatus.EXIT_SYSCALL, 0, 0, "mprotect", "[0.1]", "out"⟩ =
      (false, none, none) ∧
    ¬ ((compilation_step
          ⟨true, ExitStatus.EXIT_SYSCALL, 0, 0, "mprotect", "[0.1]", "out"⟩).1
        = true) := by
  constructor
  · rfl
  · decide

/-- C1, amended: when the sandbox executed the command, `compilation_step`
reports `operation_success=True` with `compilation_success=True` exactly on
`OK` with exit code 0; `operation_success=True` with
`compilation_success=False` on `OK` with nonzero exit code, on `TIMEOUT`
and on `SIGNALLED`; and `operation_success=False` (with no
compilation outcome and no text) on `SANDBOX_ERROR`, `FORBIDDEN_SYSCALL`
and `FORBIDDEN_FILE_ACCESS` alike. -/
theorem c1_compilation_step_amended (b : CompilationBox)
    (hbox : b.boxSuccess = true) :
    (b.exitStatus = ExitStatus.EXIT_OK → b.exitCode = 0 →
      ((compilation_step b).1 = true ∧
       (compilation_step b).2.1 = some true)) ∧
    (b.exitStatus = ExitStatus.EXIT_OK → b.exitCode ≠ 0 →
      ((compilation_step b).1 = true ∧
       (compilation_step b).2.1 = some false)) ∧
    (b.exitStatus = ExitStatus.EXIT_TIMEOUT ∨
        b.exitStatus = ExitStatus.EXIT_SIGNAL →
      ((compilation_step b).1 = true ∧
       (compilation_step b).2.1 = some false)) ∧
    (b.exitStatus = ExitStatus.EXIT_SANDBOX_ERROR ∨
        b.exitStatus = ExitStatus.EXIT_SYSCALL ∨
        b.exitStatus = ExitStatus.EXIT_FILE_ACCESS →
      compilation_step b = (false, none, none)) := by
  refine ⟨?_, ?_, ?_, ?_⟩
  · intro hst hc; simp [compilation_step, hbox, hst, hc]
  · intro hst hc; simp [compilation_step, hbox, hst, hc]
  · rintro (hst | hst) <;> simp [compilation_step, hbox, hst]
  · rintro (hst | hst | hst) <;> simp [compilation_step, hbox, hst]

/-- Witness for `c1_compilation_step_amended`, at a concrete timed-out
compilation. -/
theorem c1_compilation_step_amended_witness :
    (compilation_step
        ⟨true, ExitStatus.EXIT_TIMEOUT, 1, 0, "", "[10.0]", "out"⟩).1 = true ∧
    (compilation_step
        ⟨true, ExitStatus.EXIT_TIMEOUT, 1, 0, "", "[10.0]", "out"⟩).2.1
      = some false :=
  (c1_compilation_step_amended
    ⟨true, ExitStatus.EXIT_TIMEOUT, 1, 0, "", "[10.0]", "out"⟩ rfl).2.2.1
    (Or.inl rfl)

/-! ## C2 -/

/-- C2: on the final step of an evaluation, `evaluation_step_after_run`
maps `TIMEOUT` to `success=True` with outcome `0.0`; `SIGNALLED` to
`success=True` with outcome `0.0`; `FORBIDDEN_SYSCALL` and
`FORBIDDEN_FILE_ACCESS` to `success=True` with outcome `0.0` and a
message; `SANDBOX_ERROR` to `success=False`; and on `OK` it parses outcome
and text from the manager's two output streams, a parse failure yielding
`success=False` with no default outcome. -/
theorem c2_after_run_final_mapping (sb : EvalBox) :
    (sb.exitStatus = ExitStatus.EXIT_TIMEOUT →
      evaluation_step_after_run sb true =
        (true, some 0, some "Execution timed out.", sb.usage)) ∧
    (sb.exitStatus = ExitStatus.EXIT_SIGNAL →
      evaluation_step_after_run sb true =
        (true, some 0,
         some ("Execution killed with signal " ++ toString sb.killingSignal
           ++ ". This could be triggered by violating memory limits"),
         sb.usage)) ∧
    (sb.exitStatus = ExitStatus.EXIT_SYSCALL ∨
        sb.exitStatus = ExitStatus.EXIT_FILE_ACCESS →
      ((evaluation_step_after_run sb true).1 = true ∧
       (evaluation_step_after_run sb true).2.1 = some 0 ∧
       (evaluation_step_after_run sb true).2.2.1 ≠ none)) ∧
    (sb.exitStatus = ExitStatus.EXIT_SANDBOX_ERROR →
      evaluation_step_after_run sb true = (false, none, none, sb.usage)) ∧
    (sb.exitStatus = ExitStatus.EXIT_OK →
      (extract_outcome_and_text sb.stdoutFile sb.stderrFile = none →
        evaluation_step_after_run sb true = (false, none, none, sb.usage)) ∧
      (∀ o t, extract_outcome_and_text sb.stdoutFile sb.stderrFile
          = some (o, t) →
        evaluation_step_after_run sb true = (true, some o, some t, sb.usage))) := by
  refine ⟨?_, ?_, ?_, ?_, ?_⟩
  · intro hst; simp [evaluation_step_after_run, hst]
  · intro hst; simp [evaluation_step_after_run, hst]
  · rintro (hst | hst) <;> simp [evaluation_step_after_run, hst]
  · intro hst; simp [evaluation_step_after_run, hst]
  · intro hst
    constructor
    · intro hex; simp [evaluation_step_after_run, hst, hex]
    · intro o t hex; simp [evaluation_step_after_run, hst, hex]

/-- Witness for `c2_after_run_final_mapping`, at a concrete timed-out
evaluation. -/
theorem c2_after_run_final_mapping_witness :
    evaluation_step_after_run
        ⟨ExitStatus.EXIT_TIMEOUT, 0, "", "", "", ⟨2, 4, 1000⟩⟩ true =
      (true, some 0, some "Execution timed out.", ⟨2, 4, 1000⟩) :=
  (c2_after_run_final_mapping
    ⟨ExitStatus.EXIT_TIMEOUT, 0, "", "", "", ⟨2, 4, 1000⟩⟩).1 rfl

/-! ## C5 -/

/-- C5, counterexample: the claim states that once an evaluation outcome is
set it lies in `0.0 <= outcome <= task_max_outcome`; but an outcome parsed
from the manager's streams is whatever float the manager wrote: a manager
stdout of `"-1"` yields `success=True` with outcome `-1.0 < 0.0`. -/
theorem c5_counterexample :
    (evaluation_step_after_run
        ⟨ExitStatus.EXIT_OK, 0, "", "-1\n", "ok\n", ⟨0, 0, 0⟩⟩ true).1
      = true ∧
    (evaluation_step_after_run
        ⟨ExitStatus.EXIT_OK, 0, "", "-1\n", "ok\n", ⟨0, 0, 0⟩⟩ true).2.1
      = some (-1) ∧
    ¬ ((0 : ℚ) ≤ -1) := by
  refine ⟨by decide, by decide, by norm_num⟩

/-- C5, amended: whenever an evaluation step reports `success=False` the
outcome is `None`; an outcome set by the timeout/signal/forbidden
classification is exactly `0.0`, and a white-diff comparison always
succeeds with an outcome in `[0.0, 1.0]`; but an outcome parsed from the
manager's output streams equals the float the manager wrote and is not
constrained to the scoring range. -/
theorem c5_outcome_amended (sb : EvalBox) (final : Bool) :
    ((evaluation_step_after_run sb final).1 = false →
      (evaluation_step_after_run sb final).2.1 = none) ∧
    (sb.exitStatus ≠ ExitStatus.EXIT_OK →
      ((evaluation_step_after_run sb final).2.1 = none ∨
       (evaluation_step_after_run sb final).2.1 = some 0)) ∧
    (∀ (fs : Fs) (name : String) (ftg : List (String × String)),
      (white_diff_step fs name ftg).1 = true ∧
      (0 : ℚ) ≤ (white_diff_step fs name ftg).2.1 ∧
      (white_diff_step fs name ftg).2.1 ≤ 1) ∧
    (sb.exitStatus = ExitStatus.EXIT_OK → final = true →
      ∀ o t, extract_outcome_and_text sb.stdoutFile sb.stderrFile
          = some (o, t) →
        (evaluation_step_after_run sb final).2.1 = some o) := by
  refine ⟨?_, ?_, ?_, ?_⟩
  · cases hst : sb.exitStatus <;>
      simp only [evaluation_step_after_run, hst] <;> simp
    · cases final
      · simp
      · cases hex : extract_outcome_and_text sb.stdoutFile sb.stderrFile with
        | none => simp
        | some p => simp
  · intro hst
    cases h : sb.exitStatus <;> simp_all [evaluation_step_after_run]
  · intro fs name ftg
    unfold white_diff_step
    split_ifs <;> exact ⟨rfl, by norm_num⟩
  · intro hst hfin o t hex
    simp [evaluation_step_after_run, hst, hfin, hex]

/-- Witness for `c5_outcome_amended`, at a concrete sandbox-error
evaluation. -/
theorem c5_outcome_amended_witness :
    (evaluation_step_after_run
        ⟨ExitStatus.EXIT_SANDBOX_ERROR, 0, "", "", "", ⟨0, 0, 0⟩⟩ true).2.1
      = none :=
  (c5_outcome_amended
    ⟨ExitStatus.EXIT_SANDBOX_ERROR, 0, "", "", "", ⟨0, 0, 0⟩⟩ true).1
    (by decide)

/-! ## C6 -/

/-- C6: in the diff-mode check phase of `Batch.evaluate`, a contestant
output file that is a symbolic link is rejected before comparison: the
guarded copy leaves the freshly created checker sandbox untouched (the
link is not followed), and the subsequent white-diff step proceeds as if
the output file were absent, yielding outcome `0.0` with the "didn't
produce file" message. -/
theorem c6_symlink_rejected (sandboxFs : Fs)
    (output_filename input_filename target jobInput jobOutput : String)
    (checkbox : Fs)
    (hlink : fsLookup sandboxFs output_filename
      = some (FsEntry.symlink target))
    (hres : output_filename ≠ "res.txt")
    (hin : output_filename ≠ input_filename) :
    batch_put_user_output sandboxFs output_filename checkbox = checkbox ∧
    batch_diff_check sandboxFs output_filename input_filename
        jobInput jobOutput =
      (true, 0, "Evaluation didn't produce file " ++ output_filename) := by
  have hput : ∀ cb : Fs,
      batch_put_user_output sandboxFs output_filename cb = cb := by
    intro cb; simp [batch_put_user_output, hlink]
  refine ⟨hput checkbox, ?_⟩
  have hres' : ¬ ("res.txt" = output_filename) := fun h => hres h.symm
  have hin' : ¬ (input_filename = output_filename) := fun h => hin h.symm
  have hfe : file_exists
      [("res.txt", FsEntry.regular jobOutput),
       (input_filename, FsEntry.regular jobInput)] output_filename = false := by
    simp [file_exists, fsLookup, List.find?, hres', hin']
  unfold batch_diff_check
  rw [hput]
  unfold white_diff_step
  simp only [List.map_nil, List.append_nil]
  rw [hfe]
  simp

/-- Witness for `c6_symlink_rejected`, at a sandbox whose `output.txt` is a
symlink to a path outside the sandbox. -/
theorem c6_symlink_rejected_witness :
    batch_put_user_output [("output.txt", FsEntry.symlink "/etc/passwd")]
        "output.txt" [] = [] ∧
    batch_diff_check [("output.txt", FsEntry.symlink "/etc/passwd")]
        "output.txt" "input.txt" "1 2\n" "3\n" =
      (true, 0, "Evaluation didn't produce file " ++ "output.txt") :=
  c6_symlink_rejected [("output.txt", FsEntry.symlink "/etc/passwd")]
    "output.txt" "input.txt" "/etc/passwd" "1 2\n" "3\n" []
    (by decide) (by decide) (by decide)

/-! ## C7 -/

/-- C7: an OutputOnly evaluation whose testcase-specific output file
`output_<codename>.txt` is absent from the submitted files reports
`success=True` with outcome `0.0` and text "File not submitted", and
creates no sandbox, whatever the evaluation mode and whatever the diff or
checker steps would have returned. -/
theorem c7_output_only_missing_file (usesChecker : Bool)
    (files : List String) (codename : String)
    (checkerStep : Bool × Option ℚ × List String)
    (whiteDiffRes : ℚ × List String)
    (habs : ("output_" ++ codename ++ ".txt") ∉ files) :
    OutputOnly_evaluate usesChecker files codename checkerStep whiteDiffRes =
      { success := true, outcome := some 0,
        text := ["File not submitted"], sandboxCreated := false } := by
  simp [OutputOnly_evaluate, habs]

/-- Witness for `c7_output_only_missing_file`: testcase `017` with only the
files of testcases `001` and `002` submitted. -/
theorem c7_output_only_missing_file_witness :
    OutputOnly_evaluate true ["output_001.txt", "output_002.txt"] "017"
        (false, none, []) (1, ["Output is correct"]) =
      { success := true, outcome := some 0,
        text := ["File not submitted"], sandboxCreated := false } :=
  c7_output_only_missing_file true ["output_001.txt", "output_002.txt"]
    "017" (false, none, []) (1, ["Output is correct"]) (by decide)

/-! ## C3: dispatch lemmas -/

@[simp]
theorem opsFor_nil {Dest Payload : Type} [DecidableEq Dest] (d : Dest) :
    opsFor d ([] : List (OpEntry Dest Payload)) = [] := rfl

theorem opsFor_cons {Dest Payload : Type} [DecidableEq Dest] (d : Dest)
    (e : OpEntry Dest Payload) (q : List (OpEntry Dest Payload)) :
    opsFor d (e :: q) =
      if e.dest = d then e :: opsFor d q else opsFor d q := by
  by_cases h : e.dest = d <;> simp [opsFor, List.filter_cons, h]

theorem opsFor_dispatch_of_mem {Dest Payload : Type} [DecidableEq Dest]
    (deliver : OpEntry Dest Payload → Bool) (d : Dest) :
    ∀ (q : List (OpEntry Dest Payload)) (failed : List Dest), d ∈ failed →
      opsFor d (dispatch_operations deliver failed q) = opsFor d q := by
  intro q
  induction q with
  | nil => intro failed _; rfl
  | cons e rest ih =>
      intro failed hd
      by_cases hmem : e.dest ∈ failed
      · simp only [dispatch_operations, if_pos hmem, opsFor_cons]
        rw [ih failed hd]
      · have hne : e.dest ≠ d := fun h => hmem (h ▸ hd)
        by_cases hdel : deliver e = true
        · simp only [dispatch_operations, if_neg hmem, if_pos hdel,
            opsFor_cons, if_neg hne]
          exact ih failed hd
        · simp only [dispatch_operations, if_neg hmem, if_neg hdel,
            opsFor_cons, if_neg hne]
          exact ih (e.dest :: failed) (List.mem_cons_of_mem _ hd)

theorem opsFor_attempted_of_mem {Dest Payload : Type} [DecidableEq Dest]
    (deliver : OpEntry Dest Payload → Bool) (d : Dest) :
    ∀ (q : List (OpEntry Dest Payload)) (failed : List Dest), d ∈ failed →
      opsFor d (attempted_operations deliver failed q) = [] := by
  intro q
  induction q with
  | nil => intro failed _; rfl
  | cons e rest ih =>
      intro failed hd
      by_cases hmem : e.dest ∈ failed
      · simp only [attempted_operations, if_pos hmem]
        exact ih failed hd
      · have hne : e.dest ≠ d := fun h => hmem (h ▸ hd)
        by_cases hdel : deliver e = true
        · simp only [attempted_operations, if_neg hmem, if_pos hdel,
            opsFor_cons, if_neg hne]
          exact ih failed hd
        · simp only [attempted_operations, if_neg hmem, if_neg hdel,
            opsFor_cons, if_neg hne]
          exact ih (e.dest :: failed) (List.mem_cons_of_mem _ hd)

theorem opsFor_dispatch {Dest Payload : Type} [DecidableEq Dest]
    (deliver : OpEntry Dest Payload → Bool) (d : Dest) :
    ∀ (q : List (OpEntry Dest Payload)) (failed : List Dest), d ∉ failed →
      opsFor d (dispatch_operations deliver failed q) =
        (opsFor d q).dropWhile deliver := by
  intro q
  induction q with
  | nil => intro failed _; rfl
  | cons e rest ih =>
      intro failed hd
      by_cases hmem : e.dest ∈ failed
      · have hne : e.dest ≠ d := fun h => hd (h ▸ hmem)
        simp only [dispatch_operations, if_pos hmem, opsFor_cons, if_neg hne]
        exact ih failed hd
      · by_cases he : e.dest = d
        · by_cases hdel : deliver e = true
          · simp only [dispatch_operations, if_neg hmem, if_pos hdel,
              opsFor_cons, if_pos he, List.dropWhile_cons_of_pos hdel]
            exact ih failed hd
          · simp only [dispatch_operations, if_neg hmem, if_neg hdel,
              opsFor_cons, if_pos he,
              List.dropWhile_cons_of_neg (by simpa using hdel)]
            rw [opsFor_dispatch_of_mem deliver d rest (e.dest :: failed)
              (he ▸ List.mem_cons_self e.dest failed)]
        · by_cases hdel : deliver e = true
          · simp only [dispatch_operations, if_neg hmem, if_pos hdel,
              opsFor_cons, if_neg he]
            exact ih failed hd
          · simp only [dispatch_operations, if_neg hmem, if_neg hdel,
              opsFor_cons, if_neg he]
            exact ih (e.dest :: failed)
              (by simp [List.mem_cons, he, hd]; exact fun h => he h.symm)

theorem opsFor_attempted {Dest Payload : Type} [DecidableEq Dest]
    (deliver : OpEntry Dest Payload → Bool) (d : Dest) :
    ∀ (q : List (OpEntry Dest Payload)) (failed : List Dest), d ∉ failed →
      opsFor d (attempted_operations deliver failed q) =
        (opsFor d q).takeWhile deliver ++
          ((opsFor d q).dropWhile deliver).take 1 := by
  intro q
  induction q with
  | nil => intro failed _; rfl
  | cons e rest ih =>
      intro failed hd
      by_cases hmem : e.dest ∈ failed
      · have hne : e.dest ≠ d := fun h => hd (h ▸ hmem)
        simp only [attempted_operations, if_pos hmem, opsFor_cons, if_neg hne]
        exact ih failed hd
      · by_cases he : e.dest = d
        · by_cases hdel : deliver e = true
          · simp only [attempted_operations, if_neg hmem, if_pos hdel,
              opsFor_cons, if_pos he, List.takeWhile_cons_of_pos hdel,
              List.dropWhile_cons_of_pos hdel, List.cons_append]
            rw [ih failed hd]
          · simp only [attempted_operations, if_neg hmem, if_neg hdel,
              opsFor_cons, if_pos he,
              List.takeWhile_cons_of_neg (by simpa using hdel),
              List.dropWhile_cons_of_neg (by simpa using hdel),
              List.nil_append, List.take]
            rw [opsFor_attempted_of_mem deliver d rest (e.dest :: failed)
              (he ▸ List.mem_cons_self e.dest failed)]
        · by_cases hdel : deliver e = true
          · simp only [attempted_operations, if_neg hmem, if_pos hdel,
              opsFor_cons, if_neg he]
            exact ih failed hd
          · simp only [attempted_operations, if_neg hmem, if_neg hdel,
              opsFor_cons, if_neg he]
            exact ih (e.dest :: failed)
              (by simp [List.mem_cons, he, hd]; exact fun h => he h.symm)

theorem dispatch_sublist {Dest Payload : Type} [DecidableEq Dest]
    (deliver : OpEntry Dest Payload → Bool) :
    ∀ (q : List (OpEntry Dest Payload)) (failed : List Dest),
      List.Sublist (dispatch_operations deliver failed q) q := by
  intro q
  induction q with
  | nil => intro failed; exact List.Sublist.refl []
  | cons e rest ih =>
      intro failed
      by_cases hmem : e.dest ∈ failed
      · simp only [dispatch_operations, if_pos hmem]
        exact List.Sublist.cons₂ e (ih failed)
      · by_cases hdel : deliver e = true
        · simp only [dispatch_operations, if_neg hmem, if_pos hdel]
          exact List.Sublist.cons e (ih failed)
        · simp only [dispatch_operations, if_neg hmem, if_neg hdel]
          exact List.Sublist.cons₂ e (ih (e.dest :: failed))

/-- C3: over one dispatch tick of the Operation Queue, the requeued list is
a subsequence of the original queue (global order preserved, entries only
removed); and for every destination `d`, the requeued entries for `d` are
exactly the suffix of `d`'s FIFO queue starting at its first failing entry
(so an entry is removed iff its delivery succeeded on that tick, and a
failure for `d` requeues everything later for `d`), while the attempted
entries for `d` are exactly `d`'s successful prefix plus the single first
failing entry, independently of every other destination's deliveries. -/
theorem c3_dispatch_tick {Dest Payload : Type} [DecidableEq Dest]
    (deliver : OpEntry Dest Payload → Bool)
    (q : List (OpEntry Dest Payload)) :
    List.Sublist (dispatch_operations deliver [] q) q ∧
    ∀ d : Dest,
      opsFor d (dispatch_operations deliver [] q) =
        (opsFor d q).dropWhile deliver ∧
      opsFor d (attempted_operations deliver [] q) =
        (opsFor d q).takeWhile deliver ++
          ((opsFor d q).dropWhile deliver).take 1 :=
  ⟨dispatch_sublist deliver q [],
   fun d =>
    ⟨opsFor_dispatch deliver d q [] (List.not_mem_nil d),
     opsFor_attempted deliver d q [] (List.not_mem_nil d)⟩⟩

/-! ## C8: backlog lemmas -/

theorem popScoreLoop_preserves (k : ℕ) :
    ∀ st : BacklogState, (popScoreLoop k st).toToken = st.toToken ∧
      (popScoreLoop k st).doneToken = st.doneToken := by
  induction k with
  | zero => intro st; exact ⟨rfl, rfl⟩
  | succ k ih => intro st; simpa [popScoreLoop] using ih _

theorem popTokenLoop_preserves (k : ℕ) :
    ∀ st : BacklogState, (popTokenLoop k st).toScore = st.toScore ∧
      (popTokenLoop k st).doneScore = st.doneScore := by
  induction k with
  | zero => intro st; exact ⟨rfl, rfl⟩
  | succ k ih => intro st; simpa [popTokenLoop] using ih _

theorem popScoreLoop_lengths (k : ℕ) :
    ∀ st : BacklogState, k ≤ st.toScore.length →
      (popScoreLoop k st).toScore.length = st.toScore.length - k ∧
      (popScoreLoop k st).doneScore.length = st.doneScore.length + k := by
  induction k with
  | zero => intro st _; simp [popScoreLoop]
  | succ k ih =>
      intro st h
      have hne : st.toScore ≠ [] := by
        intro hnil; rw [hnil] at h; simp at h
      obtain ⟨a, ha⟩ := Option.isSome_iff_exists.1 (List.getLast?_isSome.2 hne)
      obtain ⟨h1, h2⟩ := ih
        { st with toScore := st.toScore.dropLast,
                  doneScore := st.doneScore ++ st.toScore.getLast?.toList }
        (by simp [List.length_dropLast]; omega)
      refine ⟨?_, ?_⟩
      · simp only [popScoreLoop]
        rw [h1]
        simp only [List.length_dropLast]
        omega
      · simp only [popScoreLoop]
        rw [h2]
        simp [ha]
        omega

theorem popTokenLoop_lengths (k : ℕ) :
    ∀ st : BacklogState, k ≤ st.toToken.length →
      (popTokenLoop k st).toToken.length = st.toToken.length - k ∧
      (popTokenLoop k st).doneToken.length = st.doneToken.length + k := by
  induction k with
  | zero => intro st _; simp [popTokenLoop]
  | succ k ih =>
      intro st h
      have hne : st.toToken ≠ [] := by
        intro hnil; rw [hnil] at h; simp at h
      obtain ⟨a, ha⟩ := Option.isSome_iff_exists.1 (List.getLast?_isSome.2 hne)
      obtain ⟨h1, h2⟩ := ih
        { st with toToken := st.toToken.dropLast,
                  doneToken := st.doneToken ++ st.toToken.getLast?.toList }
        (by simp [List.length_dropLast]; omega)
      refine ⟨?_, ?_⟩
      · simp only [popTokenLoop]
        rw [h1]
        simp only [List.length_dropLast]
        omega
      · simp only [popTokenLoop]
        rw [h2]
        simp [ha]
        omega

theorem popScoreLoop_done_le (k : ℕ) :
    ∀ st : BacklogState,
      (popScoreLoop k st).doneScore.length ≤ st.doneScore.length + k := by
  induction k with
  | zero => intro st; simp [popScoreLoop]
  | succ k ih =>
      intro st
      refine le_trans (ih _) ?_
      have : st.toScore.getLast?.toList.length ≤ 1 := by
        cases st.toScore.getLast? <;> simp
      simp only [List.length_append]
      omega

theorem score_old_submissions_rearm (st : BacklogState) :
    (score_old_submissions st).2 = true ↔
      ((score_old_submissions st).1.toScore ≠ [] ∨
       (score_old_submissions st).1.toToken ≠ []) := by
  by_cases hb : 4 < st.toScore.length
  · have hsn : (if st.toScore.length < 4 then st.toScore.length else 4) = 4 :=
      if_neg (by omega)
    have hcond : st.toScore.length - 4 > 0 := by omega
    obtain ⟨hlen, _⟩ := popScoreLoop_lengths 4 st (by omega)
    simp only [score_old_submissions, hsn, if_pos hcond]
    constructor
    · intro _
      left
      intro hnil
      rw [hnil] at hlen
      simp at hlen
      omega
    · intro _; trivial
  · have hsn : (if st.toScore.length < 4 then st.toScore.length else 4)
        = st.toScore.length := by
      split_ifs with h
      · rfl
      · omega
    have hcond : ¬ (st.toScore.length - st.toScore.length > 0) := by omega
    obtain ⟨hlen1, _⟩ := popScoreLoop_lengths st.toScore.length st (le_refl _)
    have hnil1 : (popScoreLoop st.toScore.length st).toScore = [] := by
      rw [← List.length_eq_zero]
      omega
    have htok1 : (popScoreLoop st.toScore.length st).toToken = st.toToken :=
      (popScoreLoop_preserves _ st).1
    simp only [score_old_submissions, hsn, if_neg hcond]
    by_cases htb : 16 < st.toToken.length
    · have htn : (if st.toToken.length < 16 then st.toToken.length else 16)
          = 16 := if_neg (by omega)
      have htcond : st.toToken.length - 16 > 0 := by omega
      obtain ⟨hlen2, _⟩ := popTokenLoop_lengths 16
        (popScoreLoop st.toScore.length st) (by rw [htok1]; omega)
      simp only [htn, if_pos htcond]
      constructor
      · intro _
        right
        intro hnil
        rw [hnil] at hlen2
        rw [htok1] at hlen2
        simp at hlen2
        omega
      · intro _; trivial
    · have htn : (if st.toToken.length < 16 then st.toToken.length else 16)
          = st.toToken.length := by
        split_ifs with h
        · rfl
        · omega
      have htcond : ¬ (st.toToken.length - st.toToken.length > 0) := by omega
      obtain ⟨hlen2, _⟩ := popTokenLoop_lengths st.toToken.length
        (popScoreLoop st.toScore.length st) (by rw [htok1])
      have hnil2 : (popTokenLoop st.toToken.length
          (popScoreLoop st.toScore.length st)).toToken = [] := by
        rw [← List.length_eq_zero]
        rw [hlen2, htok1]
        omega
      have hsc2 : (popTokenLoop st.toToken.length
          (popScoreLoop st.toScore.length st)).toScore = [] := by
        rw [(popTokenLoop_preserves _ _).1]
        exact hnil1
      simp only [htn, if_neg htcond]
      constructor
      · intro h; exact absurd h (by simp)
      · rintro (h | h)
        · exact absurd hsc2 h
        · exact absurd hnil2 h

theorem score_old_submissions_cap (st : BacklogState) :
    (score_old_submissions st).1.doneScore.length
      ≤ st.doneScore.length + 4 := by
  have hk : (if st.toScore.length < 4 then st.toScore.length else 4) ≤ 4 := by
    split_ifs <;> omega
  have hbase : ∀ k, k ≤ 4 →
      (popScoreLoop k st).doneScore.length ≤ st.doneScore.length + 4 :=
    fun k hk4 => le_trans (popScoreLoop_done_le k st) (by omega)
  simp only [score_old_submissions]
  by_cases h1 : st.toScore.length -
      (if st.toScore.length < 4 then st.toScore.length else 4) > 0
  · rw [if_pos h1]
    exact hbase _ hk
  · rw [if_neg h1]
    by_cases h2 : st.toToken.length -
        (if st.toToken.length < 16 then st.toToken.length else 16) > 0
    · rw [if_pos h2]
      exact le_trans
        (le_of_eq (congrArg List.length (popTokenLoop_preserves _ _).2))
        (hbase _ hk)
    · rw [if_neg h2]
      exact le_trans
        (le_of_eq (congrArg List.length (popTokenLoop_preserves _ _).2))
        (hbase _ hk)

/-- C8: starting from a backlog of exactly 10 unscored submissions and no
pending token events, `score_old_submissions` drains the backlog in exactly
3 ticks, scoring 4, then 4, then 2 submissions, re-arming itself (returning
`True`) after the first two ticks and stopping (returning `False`) after
the third; in general a tick scores at most 4 submissions, and the
continuation flag re-arms the method iff the backlog is still non-empty
after the tick. -/
theorem c8_backlog_catch_up (st : BacklogState)
    (hs : st.toScore.length = 10) (ht : st.toToken = []) :
    ((score_old_submissions st).1.toScore.length = 6 ∧
     (score_old_submissions st).2 = true ∧
     (score_old_submissions st).1.doneScore.length
       = st.doneScore.length + 4) ∧
    ((score_old_submissions (score_old_submissions st).1).1.toScore.length
        = 2 ∧
     (score_old_submissions (score_old_submissions st).1).2 = true ∧
     (score_old_submissions
        (score_old_submissions st).1).1.doneScore.length
       = st.doneScore.length + 8) ∧
    ((score_old_submissions (score_old_submissions
        (score_old_submissions st).1).1).1.toScore.length = 0 ∧
     (score_old_submissions (score_old_submissions
        (score_old_submissions st).1).1).2 = false ∧
     (score_old_submissions (score_old_submissions
        (score_old_submissions st).1).1).1.doneScore.length
       = st.doneScore.length + 10) ∧
    (∀ st' : BacklogState,
      (score_old_submissions st').1.doneScore.length
        ≤ st'.doneScore.length + 4) ∧
    (∀ st' : BacklogState,
      (score_old_submissions st').2 = true ↔
        ((score_old_submissions st').1.toScore ≠ [] ∨
         (score_old_submissions st').1.toToken ≠ [])) := by
  have e1 : score_old_submissions st = (popScoreLoop 4 st, true) := by
    simp only [score_old_submissions, hs]
    norm_num
  obtain ⟨hl1, hd1⟩ := popScoreLoop_lengths 4 st (by omega)
  have ht1 : (popScoreLoop 4 st).toToken = [] := by
    rw [(popScoreLoop_preserves 4 st).1]; exact ht
  have e2 : score_old_submissions (popScoreLoop 4 st)
      = (popScoreLoop 4 (popScoreLoop 4 st), true) := by
    simp only [score_old_submissions, hl1, hs]
    norm_num
  obtain ⟨hl2, hd2⟩ := popScoreLoop_lengths 4 (popScoreLoop 4 st)
    (by rw [hl1, hs]; omega)
  have ht2 : (popScoreLoop 4 (popScoreLoop 4 st)).toToken = [] := by
    rw [(popScoreLoop_preserves 4 _).1]; exact ht1
  have e3 : score_old_submissions (popScoreLoop 4 (popScoreLoop 4 st))
      = (popScoreLoop 2 (popScoreLoop 4 (popScoreLoop 4 st)), false) := by
    simp only [score_old_submissions, hl2, hl1, hs, ht2]
    norm_num [popTokenLoop]
  obtain ⟨hl3, hd3⟩ := popScoreLoop_lengths 2
    (popScoreLoop 4 (popScoreLoop 4 st)) (by rw [hl2, hl1, hs])
  refine ⟨⟨?_, ?_, ?_⟩, ⟨?_, ?_, ?_⟩, ⟨?_, ?_, ?_⟩, ?_, ?_⟩
  · rw [e1]; rw [hl1, hs]
  · rw [e1]
  · rw [e1]; exact hd1
  · rw [e1, e2]; rw [hl2, hl1, hs]
  · rw [e1, e2]
  · rw [e1, e2]; rw [hd2, hd1]; try omega
  · rw [e1, e2, e3]; rw [hl3, hl2, hl1, hs]
  · rw [e1, e2, e3]
  · rw [e1, e2, e3]; rw [hd3, hd2, hd1]; try omega
  · exact score_old_submissions_cap
  · exact score_old_submissions_rearm

/-- Witness for `c8_backlog_catch_up`, on the concrete backlog
`[0, 1, ..., 9]`. -/
theorem c8_backlog_catch_up_witness :
    (score_old_submissions
        ⟨[0, 1, 2, 3, 4, 5, 6, 7, 8, 9], [], [], []⟩).1.toScore.length = 6 ∧
    (score_old_submissions
        ⟨[0, 1, 2, 3, 4, 5, 6, 7, 8, 9], [], [], []⟩).2 = true :=
  ⟨(c8_backlog_catch_up ⟨[0, 1, 2, 3, 4, 5, 6, 7, 8, 9], [], [], []⟩
      rfl rfl).1.1,
   (c8_backlog_catch_up ⟨[0, 1, 2, 3, 4, 5, 6, 7, 8, 9], [], [], []⟩
      rfl rfl).1.2.1⟩

/-! ## C9: encoding lemmas -/

theorem isWordChar_hexDig : ∀ d : ℕ, d < 16 → isWordChar (hexDig d) = true := by
  decide

theorem isWordChar_of_mem_alphabet :
    ∀ c ∈ ID_ALPHABET, isWordChar c = true := by
  decide

theorem natToHexAux_chars (fuel : ℕ) :
    ∀ n : ℕ, ∀ ch ∈ natToHexAux fuel n, isWordChar ch = true := by
  induction fuel with
  | zero =>
      intro n ch hch
      simp only [natToHexAux, List.mem_singleton] at hch
      subst hch
      exact isWordChar_hexDig _ (Nat.mod_lt _ (by norm_num))
  | succ fuel ih =>
      intro n ch hch
      by_cases hn : n < 16
      · rw [natToHexAux, if_pos hn] at hch
        simp only [List.mem_singleton] at hch
        subst hch
        exact isWordChar_hexDig _ hn
      · rw [natToHexAux, if_neg hn] at hch
        rcases List.mem_append.1 hch with h | h
        · exact ih _ ch h
        · simp only [List.mem_singleton] at h
          subst h
          exact isWordChar_hexDig _ (Nat.mod_lt _ (by norm_num))

theorem encode_id_char_chars (c : Char) :
    ∀ ch ∈ encode_id_char c, isWordChar ch = true := by
  intro ch hch
  by_cases hm : c ∈ ID_ALPHABET
  · simp only [encode_id_char, if_pos hm, List.mem_singleton] at hch
    subst hch
    exact isWordChar_of_mem_alphabet _ hm
  · simp only [encode_id_char, if_neg hm, List.mem_cons] at hch
    rcases hch with h | h
    · subst h; decide
    · have h' : ch ∈ pyHex c.toNat := List.drop_subset _ _ h
      simp only [pyHex, List.mem_cons] at h'
      rcases h' with h'' | h'' | h''
      · subst h''; decide
      · subst h''; decide
      · exact natToHexAux_chars _ _ ch h''

theorem mem_encode_fold :
    ∀ (l : List Char) (acc : List Char) (ch : Char),
      ch ∈ l.foldl (fun acc c => acc ++ encode_id_char c) acc →
      ch ∈ acc ∨ ∃ c ∈ l, ch ∈ encode_id_char c := by
  intro l
  induction l with
  | nil => intro acc ch h; exact Or.inl h
  | cons c cs ih =>
      intro acc ch h
      rcases ih (acc ++ encode_id_char c) ch h with h' | ⟨c', hc', hch⟩
      · rcases List.mem_append.1 h' with h'' | h''
        · exact Or.inl h''
        · exact Or.inr ⟨c, List.mem_cons_self c cs, h''⟩
      · exact Or.inr ⟨c', List.mem_cons_of_mem _ hc', hch⟩

theorem natToHexAux_two_digits (fuel n : ℕ) (h1 : 1 ≤ fuel)
    (h16 : 16 ≤ n) (h256 : n < 256) :
    natToHexAux fuel n = [hexDig (n / 16), hexDig (n % 16)] := by
  cases fuel with
  | zero => omega
  | succ f =>
      rw [natToHexAux, if_neg (by omega)]
      have hdiv : n / 16 < 16 := by omega
      cases f with
      | zero =>
          simp [natToHexAux, Nat.mod_eq_of_lt hdiv]
      | succ f' =>
          simp [natToHexAux, if_pos hdiv]

theorem natToHexAux_one_digit (fuel n : ℕ) (h : n < 16) :
    natToHexAux fuel n = [hexDig n] := by
  cases fuel with
  | zero => simp [natToHexAux, Nat.mod_eq_of_lt h]
  | succ f => simp [natToHexAux, if_pos h]

/-- C9, counterexample: the claim states that every character outside
`A-Za-z0-9` is replaced by an underscore followed by the two hexadecimal
digits of its byte code; but `hex(ord(char))[-2:]` takes the last two
CHARACTERS of Python's hex string, so the newline character (code 10,
`hex` string `"0xa"`) is encoded as `"_xa"`, not as the two hex digits
`"_0a"`. -/
theorem c9_counterexample :
    encode_id "\n" = "_xa" ∧
    String.mk (spec_escape '\n') = "_0a" ∧
    encode_id "\n" ≠ String.mk (spec_escape '\n') := by
  refine ⟨by decide, by decide, by decide⟩

/-- C9, amended: every character of `encode_id`'s output belongs to
`[A-Za-z0-9_]`; an input character outside `A-Za-z0-9` whose byte code is
at least 16 is replaced by an underscore followed by exactly the two
lowercase hexadecimal digits of its code; but a character whose code is
below 16 is replaced by `"_x"` followed by the single hexadecimal digit
(the last two characters of Python's `hex` string), not by its two-digit
code. -/
theorem c9_encode_id_amended (s : String) (c : Char) :
    (∀ ch ∈ (encode_id s).data, isWordChar ch = true) ∧
    (c ∉ ID_ALPHABET → 16 ≤ c.toNat → c.toNat < 256 →
      encode_id_char c = ['_', hexDig (c.toNat / 16), hexDig (c.toNat % 16)]) ∧
    (c ∉ ID_ALPHABET → c.toNat < 16 →
      encode_id_char c = ['_', 'x', hexDig c.toNat]) := by
  refine ⟨?_, ?_, ?_⟩
  · intro ch hch
    rcases mem_encode_fold s.data [] ch hch with h | ⟨c', _, hch'⟩
    · simp at h
    · exact encode_id_char_chars c' ch hch'
  · intro hm h16 h256
    simp only [encode_id_char, if_neg hm, pyHex]
    rw [natToHexAux_two_digits c.toNat c.toNat (by omega) h16 h256]
    simp
  · intro hm h16
    simp only [encode_id_char, if_neg hm, pyHex]
    rw [natToHexAux_one_digit c.toNat c.toNat h16]
    simp

/-- Witness for `c9_encode_id_amended`: the character `?` (code 63) is
escaped as underscore plus its two hex digits `3f`. -/
theorem c9_encode_id_amended_witness :
    encode_id_char '?' = ['_', hexDig (('?').toNat / 16),
      hexDig (('?').toNat % 16)] :=
  (c9_encode_id_amended "a" '?').2.1 (by decide) (by decide) (by decide)

/-! ## C10 -/

/-- C10: the Scoring Service never enqueues data about a hidden user: for a
submission whose user is hidden, `new_evaluation` and `submission_tokened`
return with the service state unchanged — no score assigned or persisted,
no ranking-view mutation, nothing appended to the operation queue — and
every entry of the users payload assembled by `initialize` comes from a
non-hidden user. -/
theorem c10_hidden_user_invisible {σ : Type}
    (addSub : σ → ℕ → ℕ → String → List ℚ → Bool → σ)
    (poolScore : σ → ℕ → ℚ × ℚ)
    (updView : σ → List ((String × ℕ) × ℚ) → List ((String × ℕ) × ℚ))
    (rankings : List ℕ) (db : ℕ → Option SSSubmission)
    (st : SSState σ) (submission_id timestamp : ℕ) (sub : SSSubmission)
    (hdb : db submission_id = some sub) (hh : sub.user.hidden = true) :
    new_evaluation addSub poolScore updView rankings db st submission_id
      = st ∧
    submission_tokened rankings db st submission_id timestamp = st ∧
    ∀ (users : List SSUser) (e : String × String × String),
      e ∈ initialize_users users →
      ∃ u ∈ users, u.hidden = false ∧
        e = (encode_id u.username, u.first_name, u.last_name) := by
  refine ⟨?_, ?_, ?_⟩
  · simp [new_evaluation, hdb, hh]
  · simp [submission_tokened, hdb, hh]
  · intro users e he
    simp only [initialize_users, List.mem_map, List.mem_filter] at he
    obtain ⟨u, ⟨hu, hhid⟩, rfl⟩ := he
    exact ⟨u, hu, by simpa using hhid, rfl⟩

/-- Witness for `c10_hidden_user_invisible`, with a one-ranking
configuration and a database holding one hidden user's submission. -/
theorem c10_hidden_user_invisible_witness :
    new_evaluation (fun _ _ _ _ _ _ => ()) (fun _ _ => (0, 0)) (fun _ v => v)
        [0]
        (fun _ => some ⟨⟨"hidden_user", "H", "U", true⟩, 0, "task", 5,
          [1], false⟩)
        ⟨(), [], [], [], [], []⟩ 7 =
      ⟨(), [], [], [], [], []⟩ :=
  (c10_hidden_user_invisible (fun _ _ _ _ _ _ => ()) (fun _ _ => (0, 0))
    (fun _ v => v) [0]
    (fun _ => some ⟨⟨"hidden_user", "H", "U", true⟩, 0, "task", 5,
      [1], false⟩)
    ⟨(), [], [], [], [], []⟩ 7 3
    ⟨⟨"hidden_user", "H", "U", true⟩, 0, "task", 5, [1], false⟩
    rfl rfl).1

end CMS
